import Mathlib

/-!
Shallow embedding of the codec core of this repository: the bounds-check
assertions (`assertByteArrayIsNotEmptyForCodec`,
`assertByteArrayHasEnoughBytesForCodec`) and the factory functions
(`createEncoder`, `createDecoder`, `createCodec`) that synthesize `encode`
and `decode` from the primitive `write` and `read` operations together with
a size descriptor.

Modelling choices:
- A `Uint8Array` is a `List Nat` of its bytes; its length is immutable in
  JavaScript, so a `write` function (which mutates a caller-supplied buffer
  in place) is modelled as a state-passing function together with the fact
  that it preserves the buffer length.
- JavaScript numbers used as offsets and expected lengths are modelled as
  integers, since expressions such as `bytes.length - offset` may be
  negative.
- Thrown `SolanaError`s are modelled with `Except`.
-/

namespace Codecs

/-- An offset in bytes. JavaScript offsets are numbers and the arithmetic
`bytes.length - offset` can go negative, so offsets are integers here. -/
abbrev Offset := Int

/-- The `SolanaError` values thrown by this module, with their error codes
and context payloads. -/
inductive SolanaError where
  | cannotDecodeEmptyByteArray (codecDescription : String)
  | invalidByteLength (codecDescription : String) (expected : Int) (bytesLength : Int)
  deriving DecidableEq, Repr

/-- Embedding of `assertByteArrayIsNotEmptyForCodec`: throws
`SOLANA_ERROR__CODECS__CANNOT_DECODE_EMPTY_BYTE_ARRAY` carrying the codec
description when `bytes.length - offset <= 0`. -/
def assertByteArrayIsNotEmptyForCodec (codecDescription : String) (bytes : List Nat)
    (offset : Offset := 0) : Except SolanaError Unit :=
  if (bytes.length : Int) - offset ≤ 0 then
    .error (.cannotDecodeEmptyByteArray codecDescription)
  else
    .ok ()

/-- Embedding of `assertByteArrayHasEnoughBytesForCodec`: computes
`bytesLength = bytes.length - offset` and throws
`SOLANA_ERROR__CODECS__INVALID_BYTE_LENGTH` carrying the description, the
expected length and the computed length when `bytesLength < expected`. -/
def assertByteArrayHasEnoughBytesForCodec (codecDescription : String) (expected : Int)
    (bytes : List Nat) (offset : Offset := 0) : Except SolanaError Unit :=
  let bytesLength := (bytes.length : Int) - offset
  if bytesLength < expected then
    .error (.invalidByteLength codecDescription expected bytesLength)
  else
    .ok ()

/-- Embedding of the `EncoderSize` union type: either a non-null `fixedSize`,
or `fixedSize: null` together with `maxSize` and `variableSize`. -/
inductive EncoderSize (T : Type) where
  | fixed (fixedSize : Nat)
  | varSize (maxSize : Option Nat) (variableSize : T → Nat)

/-- Embedding of the `DecoderSize` union type: either a non-null `fixedSize`,
or `fixedSize: null` together with `maxSize` (no size function). -/
inductive DecoderSize where
  | fixed (fixedSize : Nat)
  | varSize (maxSize : Option Nat)
  deriving DecidableEq, Repr

/-- Embedding of `getEncodedSize`: the fixed size when `fixedSize` is not
null, otherwise `encoder.variableSize(value)`. -/
def getEncodedSize {T : Type} (value : T) (encoder : EncoderSize T) : Nat :=
  match encoder with
  | .fixed fixedSize => fixedSize
  | .varSize _ variableSize => variableSize value

/-- A `write(value, bytes, offset)` primitive. In JavaScript it mutates the
caller-supplied `Uint8Array` in place and returns the next offset; we model
the mutation by returning the updated buffer. Since a `Uint8Array` has an
immutable length, every write function preserves the buffer length: that
host-language fact is carried in `length_run`. -/
structure WriteFn (T : Type) where
  run : T → List Nat → Offset → List Nat × Offset
  length_run : ∀ value bytes offset, ((run value bytes offset).1).length = bytes.length

/-- A `read(bytes, offset)` primitive: returns the decoded value and the next
offset, or throws. -/
abbrev ReadFn (T : Type) := List Nat → Offset → Except SolanaError (T × Offset)

/-- The argument of `createEncoder`: a size descriptor and a `write`. -/
structure EncoderInput (T : Type) where
  size : EncoderSize T
  write : WriteFn T

/-- The object returned by `createEncoder`: the size-descriptor fields,
`encode` and `write`. -/
structure Encoder (T : Type) where
  size : EncoderSize T
  encode : T → List Nat
  write : WriteFn T

/-- The argument of `createDecoder`: a size descriptor and a `read`. -/
structure DecoderInput (T : Type) where
  size : DecoderSize
  read : ReadFn T

/-- The object returned by `createDecoder`: the size-descriptor fields,
`decode` (with optional offset) and `read`. -/
structure Decoder (T : Type) where
  size : DecoderSize
  decode : List Nat → Option Offset → Except SolanaError T
  read : ReadFn T

/-- The argument of `createCodec`: a size descriptor, a `write` and a
`read`. -/
structure CodecInput (A B : Type) where
  size : EncoderSize A
  write : WriteFn A
  read : ReadFn B

/-- The object returned by `createCodec`. -/
structure Codec (A B : Type) where
  size : EncoderSize A
  encode : A → List Nat
  write : WriteFn A
  decode : List Nat → Option Offset → Except SolanaError B
  read : ReadFn B

/-- The conditional spread `...(x.fixedSize === null ? \x7b fixedSize: null,
maxSize, variableSize \x7d : \x7b fixedSize \x7d)` used by `createEncoder`
and `createCodec` to re-expose the size-descriptor fields. -/
def rebuildEncoderSize {T : Type} (s : EncoderSize T) : EncoderSize T :=
  match s with
  | .varSize maxSize variableSize => .varSize maxSize variableSize
  | .fixed fixedSize => .fixed fixedSize

/-- The conditional spread `...(x.fixedSize === null ? \x7b fixedSize: null,
maxSize \x7d : \x7b fixedSize \x7d)` used by `createDecoder`. -/
def rebuildDecoderSize (s : DecoderSize) : DecoderSize :=
  match s with
  | .varSize maxSize => .varSize maxSize
  | .fixed fixedSize => .fixed fixedSize

/-- Embedding of `createEncoder`: fills the missing `encode` using `write`.
`encode(value)` allocates a zero-initialized buffer of
`getEncodedSize(value, encoder)` bytes, calls `write(value, bytes, 0)` and
returns the (mutated) buffer. -/
def createEncoder {T : Type} (encoder : EncoderInput T) : Encoder T where
  size := rebuildEncoderSize encoder.size
  encode := fun value =>
    let bytes := List.replicate (getEncodedSize value encoder.size) 0
    (encoder.write.run value bytes 0).1
  write := encoder.write

/-- Embedding of `createDecoder`: fills the missing `decode` using `read`.
`decode(bytes, offset)` calls `read(bytes, offset ?? 0)` and keeps only the
first component of the returned pair. -/
def createDecoder {T : Type} (decoder : DecoderInput T) : Decoder T where
  size := rebuildDecoderSize decoder.size
  decode := fun bytes offset => (decoder.read bytes (offset.getD 0)).map Prod.fst
  read := decoder.read

/-- Embedding of `createCodec`: fills the missing `encode` and `decode`
using the provided `write` and `read`, exactly as the two factories above. -/
def createCodec {A B : Type} (codec : CodecInput A B) : Codec A B where
  size := rebuildEncoderSize codec.size
  decode := fun bytes offset => (codec.read bytes (offset.getD 0)).map Prod.fst
  encode := fun value =>
    let bytes := List.replicate (getEncodedSize value codec.size) 0
    (codec.write.run value bytes 0).1
  read := codec.read
  write := codec.write

/-- An in-place store into a typed array: `bytes[i] = value` updates the
entry when `i` is in bounds and is silently ignored otherwise (a JavaScript
typed array silently drops out-of-range indexed stores). Used only to build
concrete example codecs. -/
def setByte (bytes : List Nat) (i : Offset) (value : Nat) : List Nat :=
  if 0 ≤ i ∧ i < (bytes.length : Int) then bytes.set i.toNat value else bytes

theorem setByte_length (bytes : List Nat) (i : Offset) (value : Nat) :
    (setByte bytes i value).length = bytes.length := by
  unfold setByte
  split <;> simp

/-- A concrete single-byte `write`: stores `value % 256` at the offset. -/
def byteWrite : WriteFn Nat where
  run := fun value bytes offset => (setByte bytes offset (value % 256), offset + 1)
  length_run := fun value bytes offset => setByte_length bytes offset (value % 256)

/-- A concrete single-byte `read`: returns the byte at the offset, or throws
when the offset is out of bounds. -/
def byteRead : ReadFn Nat := fun bytes offset =>
  if h : 0 ≤ offset ∧ offset.toNat < bytes.length then
    .ok (bytes.get ⟨offset.toNat, h.2⟩, offset + 1)
  else
    .error (.invalidByteLength "byte" 1 ((bytes.length : Int) - offset))

/-- A concrete fixed-size-1 codec input pairing `byteWrite` and `byteRead`. -/
def byteCodecInput : CodecInput Nat Nat where
  size := .fixed 1
  write := byteWrite
  read := byteRead

/-- Claim C4: `assertByteArrayHasEnoughBytesForCodec` computes
`available = bytes.length - offset`, throws `InvalidByteLength` carrying the
description, the expected length and the available length exactly when
`available < expected` (and returns normally otherwise), defaults the
offset to 0, and in particular throws with expected length 4 on any
length-5 buffer at offset 2 while returning normally at offset 1. -/
theorem assertHasEnoughBytes_spec :
    (∀ (d : String) (expected : Int) (bytes : List Nat) (offset : Int),
      ((bytes.length : Int) - offset < expected →
        assertByteArrayHasEnoughBytesForCodec d expected bytes offset
          = .error (.invalidByteLength d expected ((bytes.length : Int) - offset)))
      ∧ (¬ (bytes.length : Int) - offset < expected →
        assertByteArrayHasEnoughBytesForCodec d expected bytes offset = .ok ()))
    ∧ (∀ (d : String) (expected : Int) (bytes : List Nat),
        assertByteArrayHasEnoughBytesForCodec d expected bytes
          = assertByteArrayHasEnoughBytesForCodec d expected bytes 0)
    ∧ (∀ (d : String) (bytes : List Nat), bytes.length = 5 →
        assertByteArrayHasEnoughBytesForCodec d 4 bytes 2
            = .error (.invalidByteLength d 4 3)
        ∧ assertByteArrayHasEnoughBytesForCodec d 4 bytes 1 = .ok ()) := by
  refine ⟨fun d expected bytes offset => ⟨fun h => ?_, fun h => ?_⟩,
    fun d expected bytes => rfl, fun d bytes h => ⟨?_, ?_⟩⟩
  · simp [assertByteArrayHasEnoughBytesForCodec, h]
  · simp [assertByteArrayHasEnoughBytesForCodec, h]
  · simp [assertByteArrayHasEnoughBytesForCodec, h]
  · simp [assertByteArrayHasEnoughBytesForCodec, h]

/-- Witness for C4 at a concrete length-5 buffer. -/
theorem assertHasEnoughBytes_spec_witness :
    assertByteArrayHasEnoughBytesForCodec "x" 4 [9, 9, 9, 9, 9] 2
        = .error (.invalidByteLength "x" 4 3)
    ∧ assertByteArrayHasEnoughBytesForCodec "x" 4 [9, 9, 9, 9, 9] 1 = .ok () :=
  assertHasEnoughBytes_spec.2.2 "x" [9, 9, 9, 9, 9] (by decide)

/-- Claim C5: `assertByteArrayIsNotEmptyForCodec` throws `EmptyByteArray`
carrying the description exactly when `bytes.length - offset ≤ 0` (and
returns normally otherwise), defaults the offset to 0, and in particular
throws on an empty buffer at offset 0 and on any non-empty buffer at an
offset equal to the buffer length. -/
theorem assertNotEmpty_spec :
    (∀ (d : String) (bytes : List Nat) (offset : Int),
      ((bytes.length : Int) - offset ≤ 0 →
        assertByteArrayIsNotEmptyForCodec d bytes offset
          = .error (.cannotDecodeEmptyByteArray d))
      ∧ (0 < (bytes.length : Int) - offset →
        assertByteArrayIsNotEmptyForCodec d bytes offset = .ok ()))
    ∧ (∀ (d : String) (bytes : List Nat),
        assertByteArrayIsNotEmptyForCodec d bytes
          = assertByteArrayIsNotEmptyForCodec d bytes 0)
    ∧ (∀ d : String,
        assertByteArrayIsNotEmptyForCodec d [] 0 = .error (.cannotDecodeEmptyByteArray d))
    ∧ (∀ (d : String) (bytes : List Nat), bytes ≠ [] →
        assertByteArrayIsNotEmptyForCodec d bytes (bytes.length : Int)
          = .error (.cannotDecodeEmptyByteArray d)) := by
  refine ⟨fun d bytes offset => ⟨fun h => ?_, fun h => ?_⟩,
    fun d bytes => rfl, fun d => rfl, fun d bytes h => ?_⟩
  · simp [assertByteArrayIsNotEmptyForCodec, h]
  · simp [assertByteArrayIsNotEmptyForCodec]
    omega
  · simp [assertByteArrayIsNotEmptyForCodec]

/-- Witness for C5: the guard throws on a non-empty buffer at an offset
equal to its length. -/
theorem assertNotEmpty_spec_witness :
    assertByteArrayIsNotEmptyForCodec "x" [7, 7] 2 = .error (.cannotDecodeEmptyByteArray "x") :=
  assertNotEmpty_spec.2.2.2 "x" [7, 7] (by decide)

/-- Claim C9: with expected length 0 the byte-length guard returns normally
whenever `offset ≤ bytes.length`, including on the empty byte array at
offset 0, an input on which the emptiness guard throws. -/
theorem hasEnoughBytes_zero_expected (d : String) (bytes : List Nat) (offset : Int)
    (h : offset ≤ (bytes.length : Int)) :
    assertByteArrayHasEnoughBytesForCodec d 0 bytes offset = .ok ()
    ∧ assertByteArrayHasEnoughBytesForCodec d 0 [] 0 = .ok ()
    ∧ assertByteArrayIsNotEmptyForCodec d [] 0 = .error (.cannotDecodeEmptyByteArray d) := by
  refine ⟨?_, rfl, rfl⟩
  simp [assertByteArrayHasEnoughBytesForCodec]
  omega

/-- Witness for C9 at the empty byte array and offset 0. -/
theorem hasEnoughBytes_zero_expected_witness :
    assertByteArrayHasEnoughBytesForCodec "x" 0 [] 0 = .ok ()
    ∧ assertByteArrayHasEnoughBytesForCodec "x" 0 [] 0 = .ok ()
    ∧ assertByteArrayIsNotEmptyForCodec "x" [] 0 = .error (.cannotDecodeEmptyByteArray "x") :=
  hasEnoughBytes_zero_expected "x" [] 0 (by decide)

/-- Claim C10: over integer offsets, the emptiness guard throws exactly when
the byte-length guard with expected length 1 throws, since
`bytes.length - offset ≤ 0` and `bytes.length - offset < 1` coincide; this
covers offsets past the end of the buffer, where the available length is
negative. -/
theorem notEmpty_iff_hasEnough_one (d : String) (bytes : List Nat) (offset : Int) :
    (∃ e, assertByteArrayIsNotEmptyForCodec d bytes offset = .error e)
    ↔ (∃ e, assertByteArrayHasEnoughBytesForCodec d 1 bytes offset = .error e) := by
  unfold assertByteArrayIsNotEmptyForCodec assertByteArrayHasEnoughBytesForCodec
  constructor
  · rintro ⟨e, he⟩
    split at he
    · exact ⟨.invalidByteLength d 1 ((bytes.length : Int) - offset), by
        simp only []
        rw [if_pos (by omega)]⟩
    · exact absurd he (by simp)
  · rintro ⟨e, he⟩
    simp only [] at he
    split at he
    · exact ⟨.cannotDecodeEmptyByteArray d, by rw [if_pos (by omega)]⟩
    · exact absurd he (by simp)

/-- Claim C2: for every encoder built by `createEncoder` (and codec built by
`createCodec`) whose size descriptor is `fixedSize = n`, and every value and
every supplied write function, the byte array returned by `encode` has
length exactly n, because the buffer is allocated with
`getEncodedSize = fixedSize` bytes and a write cannot change its length. -/
theorem encode_length_fixed {T A B : Type} (e : EncoderInput T) (c : CodecInput A B)
    (n m : Nat) (he : e.size = .fixed n) (hc : c.size = .fixed m) (v : T) (w : A) :
    ((createEncoder e).encode v).length = n ∧ ((createCodec c).encode w).length = m := by
  constructor
  · show ((e.write.run v (List.replicate (getEncodedSize v e.size) 0) 0).1).length = n
    rw [e.write.length_run, List.length_replicate, he]
    rfl
  · show ((c.write.run w (List.replicate (getEncodedSize w c.size) 0) 0).1).length = m
    rw [c.write.length_run, List.length_replicate, hc]
    rfl

/-- Witness for C2 at the concrete single-byte codec. -/
theorem encode_length_fixed_witness :
    ((createEncoder ⟨EncoderSize.fixed 1, byteWrite⟩).encode 5).length = 1
    ∧ ((createCodec byteCodecInput).encode 5).length = 1 :=
  encode_length_fixed ⟨EncoderSize.fixed 1, byteWrite⟩ byteCodecInput 1 1 rfl rfl 5 5

/-- Claim C3: for every encoder built by `createEncoder` (and codec built by
`createCodec`) whose size descriptor has `fixedSize = null` with size
function `variableSize`, `encode v` computes `variableSize v`, allocates a
zero-initialized buffer of exactly that length, invokes `write(v, buffer, 0)`
and returns that buffer, so the result has length `variableSize v`. -/
theorem encode_length_variable {T A B : Type} (e : EncoderInput T) (c : CodecInput A B)
    (em : Option Nat) (ev : T → Nat) (cm : Option Nat) (cv : A → Nat)
    (he : e.size = .varSize em ev) (hc : c.size = .varSize cm cv) (v : T) (w : A) :
    (createEncoder e).encode v = (e.write.run v (List.replicate (ev v) 0) 0).1
    ∧ ((createEncoder e).encode v).length = ev v
    ∧ (createCodec c).encode w = (c.write.run w (List.replicate (cv w) 0) 0).1
    ∧ ((createCodec c).encode w).length = cv w := by
  refine ⟨?_, ?_, ?_, ?_⟩
  · show (e.write.run v (List.replicate (getEncodedSize v e.size) 0) 0).1 = _
    rw [he]
    rfl
  · show ((e.write.run v (List.replicate (getEncodedSize v e.size) 0) 0).1).length = ev v
    rw [e.write.length_run, List.length_replicate, he]
    rfl
  · show (c.write.run w (List.replicate (getEncodedSize w c.size) 0) 0).1 = _
    rw [hc]
    rfl
  · show ((c.write.run w (List.replicate (getEncodedSize w c.size) 0) 0).1).length = cv w
    rw [c.write.length_run, List.length_replicate, hc]
    rfl

/-- Witness for C3 at a variable-size single-byte codec whose size function
is constantly 1. -/
theorem encode_length_variable_witness :
    ((createEncoder ⟨EncoderSize.varSize none (fun _ => 1), byteWrite⟩).encode 5).length = 1
    ∧ ((createCodec ⟨EncoderSize.varSize none (fun _ => 1), byteWrite, byteRead⟩).encode 5).length
        = 1 :=
  ⟨(encode_length_variable ⟨EncoderSize.varSize none (fun _ => 1), byteWrite⟩
      ⟨EncoderSize.varSize none (fun _ => 1), byteWrite, byteRead⟩
      none (fun _ => 1) none (fun _ => 1) rfl rfl 5 5).2.1,
   (encode_length_variable ⟨EncoderSize.varSize none (fun _ => 1), byteWrite⟩
      ⟨EncoderSize.varSize none (fun _ => 1), byteWrite, byteRead⟩
      none (fun _ => 1) none (fun _ => 1) rfl rfl 5 5).2.2.2⟩

/-- Claim C6: for every decoder built by `createDecoder` (and codec built by
`createCodec`), `decode bytes offset` is the first component of
`read bytes offset` with the next offset discarded; an omitted offset
defaults to 0; and `decode` throws exactly when `read` throws, propagating
the same error unchanged. -/
theorem decode_eq_read_fst {T A B : Type} (d : DecoderInput T) (c : CodecInput A B)
    (bytes : List Nat) (offset : Int) :
    (createDecoder d).decode bytes (some offset) = (d.read bytes offset).map Prod.fst
    ∧ (createDecoder d).decode bytes none = (d.read bytes 0).map Prod.fst
    ∧ (createCodec c).decode bytes (some offset) = (c.read bytes offset).map Prod.fst
    ∧ (createCodec c).decode bytes none = (c.read bytes 0).map Prod.fst
    ∧ (∀ err : SolanaError,
        (createDecoder d).decode bytes (some offset) = .error err
          ↔ d.read bytes offset = .error err)
    ∧ (∀ err : SolanaError,
        (createCodec c).decode bytes (some offset) = .error err
          ↔ c.read bytes offset = .error err) := by
  refine ⟨rfl, rfl, rfl, rfl, fun err => ?_, fun err => ?_⟩
  · show (d.read bytes offset).map Prod.fst = .error err ↔ _
    cases d.read bytes offset <;> simp [Except.map]
  · show (c.read bytes offset).map Prod.fst = .error err ↔ _
    cases c.read bytes offset <;> simp [Except.map]

/-- Claim C7: the three factories re-expose the size-descriptor fields of
their input unchanged and pass the supplied `write` and `read` functions
through unchanged. -/
theorem factories_preserve_fields {T A B : Type} (e : EncoderInput T) (d : DecoderInput T)
    (c : CodecInput A B) :
    (createEncoder e).size = e.size ∧ (createEncoder e).write = e.write
    ∧ (createDecoder d).size = d.size ∧ (createDecoder d).read = d.read
    ∧ (createCodec c).size = c.size ∧ (createCodec c).write = c.write
    ∧ (createCodec c).read = c.read := by
  refine ⟨?_, rfl, ?_, rfl, ?_, rfl, rfl⟩
  · show rebuildEncoderSize e.size = e.size
    cases e.size <;> rfl
  · show rebuildDecoderSize d.size = d.size
    cases d.size <;> rfl
  · show rebuildEncoderSize c.size = c.size
    cases c.size <;> rfl

/-- Claim C1: for every codec built by `createCodec` from a size descriptor
and a write/read pair that is mutually consistent on valid values (reading
at offset 0 from the freshly allocated buffer that `write` filled with `v`
yields a value equivalent to `v`), decoding the bytes produced by
`encode v` yields a value equivalent to `v`. -/
theorem codec_roundtrip {A B : Type} (c : CodecInput A B) (Valid : A → Prop)
    (equiv : A → B → Prop)
    (h : ∀ v, Valid v →
      ∃ t next,
        c.read ((c.write.run v (List.replicate (getEncodedSize v c.size) 0) 0).1) 0
          = .ok (t, next) ∧ equiv v t)
    (v : A) (hv : Valid v) :
    ∃ t, (createCodec c).decode ((createCodec c).encode v) none = .ok t ∧ equiv v t := by
  obtain ⟨t, next, hread, hequiv⟩ := h v hv
  refine ⟨t, ?_, hequiv⟩
  show (c.read ((c.write.run v (List.replicate (getEncodedSize v c.size) 0) 0).1) 0).map
      Prod.fst = .ok t
  rw [hread]
  rfl

/-- Witness for C1 at the single-byte codec and the value 42. -/
theorem codec_roundtrip_witness :
    ∃ t, (createCodec byteCodecInput).decode ((createCodec byteCodecInput).encode 42) none
        = .ok t ∧ 42 % 256 = t :=
  codec_roundtrip byteCodecInput (fun v => v = 42) (fun a b => a % 256 = b)
    (fun _ hv => hv ▸ ⟨42, 1, rfl, rfl⟩) 42 rfl

end Codecs
